import Mathlib

/-!
Shallow embedding of the Contract Intelligence Parser frontend
(`frontend/src/types/index.ts`, `frontend/src/lib/api.ts`,
`frontend/src/lib/utils.ts`, the upload component, the contract list page
and the contract detail page), together with theorems settling the
specification claims about it.

Numbers that are JavaScript `number`s are embedded as `ℚ` (exact
arithmetic); record shapes are additionally captured as key lists where a
claim is about the JSON shape itself.
-/

namespace ContractParser

/-! ## Data model (`frontend/src/types/index.ts`) -/

/-- `type ProcessingStatus = 'pending' | 'processing' | 'completed' | 'failed'` -/
inductive ProcessingStatus where
  | pending
  | processing
  | completed
  | failed
deriving DecidableEq, Repr

/-- The keys of `interface FieldEvidence` (lines 3–7 of `types/index.ts`). -/
def fieldEvidenceKeys : List String := ["page", "snippet", "source"]

/-- The `source` member of `FieldEvidence` has TypeScript type
`'rule' | 'llm'`: a string is an admissible source tag iff it is one of
these two literals. -/
def validEvidenceSource (s : String) : Bool :=
  decide (s = "rule") || decide (s = "llm")

/-- `interface FieldEvidence` with the source tag kept as the raw string
constrained by `validEvidenceSource`. -/
structure FieldEvidence where
  page : Int
  snippet : String
  source : String
deriving DecidableEq, Repr

/-- The TypeScript `value: any` of an extracted field, restricted to the
shapes `formatFieldValue` in the detail page distinguishes. -/
inductive FieldValue where
  | null
  | bool (b : Bool)
  | num (q : ℚ)
  | str (s : String)
deriving DecidableEq, Repr

/-- `interface ExtractedField` (value, confidence, optional evidence). -/
structure ExtractedField where
  value : FieldValue
  confidence : ℚ
  evidence : Option FieldEvidence
deriving DecidableEq, Repr

/-- `interface ContractGap` (field, reason, severity), with the two string
literal unions kept as raw strings. -/
structure ContractGap where
  field : String
  reason : String
  severity : String
deriving DecidableEq, Repr

/-- `interface ConfidenceSummary`. -/
structure ConfidenceSummary where
  average : ℚ
  low_count : ℕ
  high_confidence_fields : ℕ
  total_fields : ℕ
deriving DecidableEq, Repr

/-- The keys of `interface ProcessingMetadata` (lines 28–33 of
`types/index.ts`); `error_message?` is optional but is a declared key. -/
def processingMetadataKeys : List String :=
  ["ocr_used", "llm_used", "duration_ms", "error_message"]

/-- `interface ProcessingMetadata`. -/
structure ProcessingMetadata where
  ocr_used : Bool
  llm_used : Bool
  duration_ms : ℚ
  error_message : Option String
deriving DecidableEq, Repr

/-- `interface Contract`. -/
structure Contract where
  id : String
  filename : String
  status : ProcessingStatus
  processing_progress : ℚ
  uploaded_at : String
  size_bytes : ℕ
  mime_type : String
  overall_score : ℚ
  confidence_summary : ConfidenceSummary
  gaps : List ContractGap
  fields : List (String × ExtractedField)
  processing : ProcessingMetadata
deriving DecidableEq, Repr

/-! ## Helpers (`frontend/src/lib/utils.ts`) -/

/-- `const sizes = ['Bytes', 'KB', 'MB', 'GB']` in `formatFileSize`. -/
def sizes : List String := ["Bytes", "KB", "MB", "GB"]

/-- `const i = Math.floor(Math.log(bytes) / Math.log(1024))`: for a
positive integer byte count this is the base-1024 integer logarithm. -/
def fileSizeIndex (bytes : ℕ) : ℕ := Nat.log 1024 bytes

/-- `Math.round(bytes / Math.pow(1024, i) * 100) / 100`, in exact
rational arithmetic. -/
def fileSizeAmount (bytes : ℕ) : ℚ :=
  (round ((bytes : ℚ) / 1024 ^ fileSizeIndex bytes * 100) : ℤ) / 100

/-- `formatFileSize` from `utils.ts`, returning the numeric part and the
unit; the JavaScript out-of-range lookup `sizes[i]` (an `undefined` unit)
is embedded as `none`. -/
def formatFileSize (bytes : ℕ) : Option (ℚ × String) :=
  if bytes = 0 then some (0, "Bytes")
  else (sizes.get? (fileSizeIndex bytes)).map (fun u => (fileSizeAmount bytes, u))

/-- `getConfidenceColor` from `utils.ts`: thresholds `0.8` and `0.6`
appear literally in the function body. -/
def getConfidenceColor (confidence : ℚ) : String :=
  if 4 / 5 ≤ confidence then "text-green-600"
  else if 3 / 5 ≤ confidence then "text-yellow-600"
  else "text-red-600"

/-- `getConfidenceBadgeVariant` from `utils.ts`. -/
def getConfidenceBadgeVariant (confidence : ℚ) : String :=
  if 4 / 5 ≤ confidence then "default"
  else if 3 / 5 ≤ confidence then "secondary"
  else "destructive"

/-- Modelled from the spec: "Thresholds (low/high confidence) are
configuration, not hardcoded logic" — the threshold-configured
classifier the spec describes, taking the low and the high threshold as
explicit configuration inputs and returning one of three tier labels. -/
def thresholdClassify {α : Type} (low high confidence : ℚ) (hi mid lo : α) : α :=
  if high ≤ confidence then hi
  else if low ≤ confidence then mid
  else lo

/-! ## API client (`frontend/src/lib/api.ts`) -/

/-- The options argument of `contractsApi.reprocessContract`:
`{ use_ocr?: boolean; use_llm?: boolean }`. -/
structure ReprocessOptions where
  use_ocr : Option Bool
  use_llm : Option Bool
deriving DecidableEq, Repr

/-- The declared option keys of the reprocess command. -/
def reprocessOptionKeys : List String := ["use_ocr", "use_llm"]

/-- The query parameters a reprocess request carries: axios serialises
the `options` object, dropping absent (`undefined`) members. -/
def reprocessParams (o : ReprocessOptions) : List (String × Bool) :=
  (match o.use_ocr with
    | some b => [("use_ocr", b)]
    | none => []) ++
  (match o.use_llm with
    | some b => [("use_llm", b)]
    | none => [])

/-- A request to `GET /contracts` as built by the list page:
`{ page, limit: 10, status: statusFilter || undefined, sort_by, sort_order }`. -/
structure ListRequest where
  page : ℕ
  limit : ℕ
  status : Option String
  sort_by : String
  sort_order : String
deriving DecidableEq, Repr

/-! ## Upload component (`file-upload.tsx`, dropzone configuration) -/

/-- `maxSize: 50 * 1024 * 1024` — 50 MB. -/
def maxUploadSize : ℕ := 50 * 1024 * 1024

/-- A file presented to the dropzone: declared name, MIME type, size. -/
structure DroppedFile where
  name : String
  mime : String
  size : ℕ
deriving DecidableEq, Repr

/-- The dropzone accepts a file iff its MIME type matches the configured
`accept: { 'application/pdf': ['.pdf'] }` and its size does not exceed
`maxSize`. -/
def acceptsUpload (f : DroppedFile) : Bool :=
  decide (f.mime = "application/pdf") && decide (f.size ≤ maxUploadSize)

/-- The dropzone splits a presented file into (acceptedFiles,
fileRejections). -/
def dropzoneSplit (f : DroppedFile) : List DroppedFile × List DroppedFile :=
  if acceptsUpload f then ([f], []) else ([], [f])

/-- `onDrop`: `const file = acceptedFiles[0]; if (file) uploadMutation.mutate(file)` —
an upload request is issued exactly for the head of the accepted list. -/
def onDropUpload (acceptedFiles : List DroppedFile) : Option DroppedFile :=
  acceptedFiles.head?

/-- The upload request (if any) resulting from presenting one file. -/
def uploadRequestFor (f : DroppedFile) : Option DroppedFile :=
  onDropUpload (dropzoneSplit f).1

/-! ## Contract detail page (`contracts/[id]/page.tsx`) -/

/-- The `Reprocess` button is rendered iff `contract.status === 'completed'`
(lines 156–161). -/
def showsReprocessButton (s : ProcessingStatus) : Bool :=
  decide (s = ProcessingStatus.completed)

/-- The failed-state card with its `Try Again` button is rendered iff
`contract.status === 'failed'` (lines 185–202). -/
def showsTryAgainButton (s : ProcessingStatus) : Bool :=
  decide (s = ProcessingStatus.failed)

/-- A reprocess request can be initiated from the detail view iff one of
the two buttons wired to `handleReprocess` is rendered. -/
def reprocessOffered (s : ProcessingStatus) : Bool :=
  showsReprocessButton s || showsTryAgainButton s

/-- The error text surfaced by the detail view: rendered only inside the
failed-state card, showing `contract.processing.error_message` with a
generic fallback. -/
def failedErrorMessage (c : Contract) : Option String :=
  if c.status = ProcessingStatus.failed then
    some (c.processing.error_message.getD "An error occurred during processing")
  else none

/-- The options `handleReprocess` passes:
`contractsApi.reprocessContract(contract.id, { use_ocr: true })`. -/
def handleReprocessOptions : ReprocessOptions := ⟨some true, none⟩

/-- `refetchInterval` of the detail query: `5000` when the fetched
contract's status is `'processing'`, else `false` (no polling);
`data` is `none` before the first response arrives. -/
def detailRefetchInterval (data : Option ProcessingStatus) : Option ℕ :=
  if data = some ProcessingStatus.processing then some 5000 else none

/-- The local `getConfidenceColor` of the detail page (lines 68–72),
again with literal thresholds `0.8` and `0.6`. -/
def detailConfidenceColor (confidence : ℚ) : String :=
  if 4 / 5 ≤ confidence then "text-green-600 bg-green-50 border-green-200"
  else if 3 / 5 ≤ confidence then "text-yellow-600 bg-yellow-50 border-yellow-200"
  else "text-red-600 bg-red-50 border-red-200"

/-! ## Contract list page (`contracts/page.tsx`) -/

/-- The page requests `limit: 10`. -/
def listLimit : ℕ := 10

/-- The `Sort by` select offers exactly these option values (lines
150–152). -/
def sortByOptions : List String := ["uploaded_at", "overall_score", "filename"]

/-- The `Order` select offers exactly these option values (lines 163–164). -/
def sortOrderOptions : List String := ["desc", "asc"]

/-- The `Status` select option values; `""` means "All statuses". -/
def statusFilterOptions : List String :=
  ["", "pending", "processing", "completed", "failed"]

/-- The query the list page issues for its current state:
`listContracts({ page, limit: 10, status: statusFilter || undefined, sort_by, sort_order })`. -/
def buildListRequest (page : ℕ) (statusFilter sortBy sortOrder : String) : ListRequest :=
  ⟨page, listLimit, if statusFilter = "" then none else some statusFilter, sortBy, sortOrder⟩

/-- `refetchInterval` of the list query: `5000` when some listed
contract is `'processing'`, else `false`; before data arrives the
`?? false` fallback applies. -/
def listRefetchInterval (data : Option (List ProcessingStatus)) : Option ℕ :=
  if (data.elim false (fun l => l.any (fun s => decide (s = ProcessingStatus.processing))))
  then some 5000 else none

/-- `Math.ceil(contractsData.total / 10)` for a natural `total`. -/
def totalPages (total : ℕ) : ℕ := (total + 9) / 10

/-- The pagination controls are rendered iff `contractsData.total > 10`. -/
def paginationShown (total : ℕ) : Bool := decide (10 < total)

/-- `disabled={page <= 1}` on the Previous button. -/
def prevDisabled (page : ℕ) : Bool := decide (page ≤ 1)

/-- `disabled={page >= Math.ceil(contractsData.total / 10)}` on the Next
button. -/
def nextDisabled (total page : ℕ) : Bool := decide (totalPages total ≤ page)

/-- A click on one of the two pagination buttons. -/
inductive PageClick where
  | prev
  | next
deriving DecidableEq, Repr

/-- Effect of a click on the page state: a click does nothing when the
controls are not rendered or the button is disabled; otherwise Previous
runs `setPage(page - 1)` and Next runs `setPage(page + 1)`. -/
def clickPage (total page : ℕ) : PageClick → ℕ
  | PageClick.prev =>
      if paginationShown total && !prevDisabled page then page - 1 else page
  | PageClick.next =>
      if paginationShown total && !nextDisabled total page then page + 1 else page

/-- The page reached from the initial `useState(1)` after a sequence of
clicks, with a fixed total. -/
def applyClicks (total : ℕ) (clicks : List PageClick) : ℕ :=
  clicks.foldl (clickPage total) 1

/-- A concrete failed contract record, as returned by the result query
for a job whose run failed. -/
def failedContractExample : Contract :=
  ⟨"abc123", "lease.pdf", ProcessingStatus.failed, 70, "2024-01-15T10:00:00Z",
   2048, "application/pdf", 0, ⟨0, 0, 0, 0⟩, [], [],
   ⟨false, false, 1500, some "Corrupt PDF"⟩⟩

/-! ## Theorems settling the claims -/

/-- Claim C1, counterexample: the claim says the evidence source tag is
one of exactly `rule` and `model`, the probabilistic fallback being
tagged `model`; but the `FieldEvidence.source` union type rejects the
string `model` and instead admits `llm`. -/
theorem evidence_source_model_is_invalid :
    validEvidenceSource "model" = false ∧ validEvidenceSource "llm" = true := by
  decide

/-- Claim C1 (amended): every evidence record has the shape
`page, snippet, source`, and its source tag is one of exactly
`rule` and `llm`; a value produced by the probabilistic fallback is
tagged `source: llm`. -/
theorem evidence_shape_and_source_tags :
    fieldEvidenceKeys = ["page", "snippet", "source"] ∧
    ∀ s : String, validEvidenceSource s = true ↔ (s = "rule" ∨ s = "llm") := by
  refine ⟨rfl, fun s => ?_⟩
  simp [validEvidenceSource]

/-- Claim C2, counterexample: the claim names the flags `ocr_used` and
`model_used`, but the `ProcessingMetadata` record has no `model_used`
key — the second flag is `llm_used`. -/
theorem processing_metadata_has_no_model_used :
    processingMetadataKeys.contains "model_used" = false ∧
    processingMetadataKeys.contains "llm_used" = true := by
  decide

/-- Claim C2 (amended): the processing metadata contains exactly the
flags `ocr_used` and `llm_used`, a duration in milliseconds and an
optional `error_message`, and the detail view surfaces an error message
exactly when the contract's status is `failed`. -/
theorem processing_metadata_shape :
    processingMetadataKeys = ["ocr_used", "llm_used", "duration_ms", "error_message"] ∧
    ∀ c : Contract, (failedErrorMessage c).isSome ↔ c.status = ProcessingStatus.failed := by
  refine ⟨rfl, fun c => ?_⟩
  unfold failedErrorMessage
  split <;> simp_all

/-- Claim C3, counterexample: the claim says the reprocess overrides are
named `use_ocr` and `use_model`; but the client's option record has no
`use_model` key, and a request enabling the probabilistic fallback
carries the parameter `use_llm`. -/
theorem reprocess_carries_use_llm_not_use_model :
    reprocessParams ⟨none, some true⟩ = [("use_llm", true)] ∧
    reprocessOptionKeys.contains "use_model" = false := by
  decide

/-- Claim C3 (amended): the reprocess command accepts exactly the
optional boolean overrides `use_ocr` and `use_llm`, every reprocess
request carries its options under these names, and the detail page's
reprocess action sends exactly `use_ocr = true`. -/
theorem reprocess_option_names :
    reprocessOptionKeys = ["use_ocr", "use_llm"] ∧
    (∀ o : ReprocessOptions,
      (reprocessParams o).all
        (fun p => decide (p.1 = "use_ocr") || decide (p.1 = "use_llm")) = true) ∧
    reprocessParams handleReprocessOptions = [("use_ocr", true)] := by
  refine ⟨rfl, fun o => ?_, rfl⟩
  rcases o with ⟨o1, o2⟩
  cases o1 <;> cases o2 <;> simp [reprocessParams]

/-- Claim C4, counterexample: the claim says the low/high confidence
thresholds are configuration supplied to the classification logic, so
that a different threshold setting yields different classifications; but
`getConfidenceColor` takes no threshold input — at confidence `0.85` it
can only answer with the hardcoded `0.6/0.8` tiers, disagreeing with the
spec's configured classifier at the setting `low = 0.8, high = 0.9`. -/
theorem confidence_thresholds_not_configurable :
    getConfidenceColor (17 / 20) = "text-green-600" ∧
    thresholdClassify (4 / 5) (9 / 10) (17 / 20)
      "text-green-600" "text-yellow-600" "text-red-600" = "text-yellow-600" := by
  constructor
  · unfold getConfidenceColor
    norm_num
  · unfold thresholdClassify
    norm_num

/-- Claim C4 (amended): the thresholds `0.6` and `0.8` are hardcoded
constants inside the classification functions: each of
`getConfidenceColor`, `getConfidenceBadgeVariant` and the detail page's
local colour classifier equals the threshold-configured classifier
instantiated at the fixed setting `low = 0.6, high = 0.8`, and they
accept no threshold configuration of their own. -/
theorem confidence_classifiers_fix_thresholds :
    ∀ c : ℚ,
      getConfidenceColor c =
        thresholdClassify (3 / 5) (4 / 5) c
          "text-green-600" "text-yellow-600" "text-red-600" ∧
      getConfidenceBadgeVariant c =
        thresholdClassify (3 / 5) (4 / 5) c "default" "secondary" "destructive" ∧
      detailConfidenceColor c =
        thresholdClassify (3 / 5) (4 / 5) c
          "text-green-600 bg-green-50 border-green-200"
          "text-yellow-600 bg-yellow-50 border-yellow-200"
          "text-red-600 bg-red-50 border-red-200" :=
  fun _ => ⟨rfl, rfl, rfl⟩

/-- Claim C5: a presented file whose MIME type is not `application/pdf`
or whose size exceeds the 50 MB maximum lands in the rejection list with
no upload request issued; an upload request is issued exactly for an
accepted PDF. -/
theorem upload_only_for_accepted_pdf (f : DroppedFile) :
    ((f.mime ≠ "application/pdf" ∨ maxUploadSize < f.size) →
      uploadRequestFor f = none ∧ (dropzoneSplit f).2 = [f]) ∧
    (acceptsUpload f = true → uploadRequestFor f = some f) := by
  constructor
  · intro h
    have hrej : acceptsUpload f = false := by
      unfold acceptsUpload
      rcases h with h | h
      · simp [h]
      · simp [Nat.not_le.mpr h]
    unfold uploadRequestFor onDropUpload dropzoneSplit
    simp [hrej]
  · intro h
    unfold uploadRequestFor onDropUpload dropzoneSplit
    simp [h]

/-- Claim C5, witness: an accepted 1000-byte PDF produces an upload
request; a rejected plain-text file produces none. -/
theorem upload_only_for_accepted_pdf_witness :
    uploadRequestFor ⟨"contract.pdf", "application/pdf", 1000⟩ =
      some ⟨"contract.pdf", "application/pdf", 1000⟩ ∧
    uploadRequestFor ⟨"notes.txt", "text/plain", 1000⟩ = none :=
  ⟨(upload_only_for_accepted_pdf _).2 (by decide),
   ((upload_only_for_accepted_pdf _).1 (Or.inl (by decide))).1⟩

/-- Claim C6: the detail view offers the reprocess action exactly in the
`completed` and `failed` states (never while `pending` or `processing`),
and a failed contract remains queryable with an error message and the
`Try Again` retry button. -/
theorem reprocess_offered_iff_terminal (s : ProcessingStatus) (c : Contract) :
    (reprocessOffered s = true ↔
      (s = ProcessingStatus.completed ∨ s = ProcessingStatus.failed)) ∧
    (c.status = ProcessingStatus.failed →
      (failedErrorMessage c).isSome = true ∧
      showsTryAgainButton c.status = true ∧
      reprocessOffered c.status = true) := by
  constructor
  · cases s <;> decide
  · intro h
    refine ⟨?_, ?_, ?_⟩
    · unfold failedErrorMessage
      simp [h]
    · unfold showsTryAgainButton
      simp [h]
    · unfold reprocessOffered showsTryAgainButton
      simp [h]

/-- Claim C6, witness: the concrete failed contract is queryable with
its error message and offers the retry action, and on the `pending`
status no reprocess action is offered. -/
theorem reprocess_offered_iff_terminal_witness :
    ((failedErrorMessage failedContractExample).isSome = true ∧
      showsTryAgainButton failedContractExample.status = true ∧
      reprocessOffered failedContractExample.status = true) ∧
    ¬ (ProcessingStatus.pending = ProcessingStatus.completed ∨
       ProcessingStatus.pending = ProcessingStatus.failed) :=
  ⟨(reprocess_offered_iff_terminal ProcessingStatus.failed failedContractExample).2 rfl,
   fun h =>
    (by decide : reprocessOffered ProcessingStatus.pending = true → False)
      ((reprocess_offered_iff_terminal ProcessingStatus.pending
        failedContractExample).1.mpr h)⟩

/-- Claim C7: every contract list request issued by the list page
carries `page` and `limit = 10`, an optional status filter, a `sort_by`
drawn from exactly the three offered keys and a `sort_order` that is
`asc` or `desc`; the page offers exactly these three sort keys and two
orders. -/
theorem list_request_shape :
    sortByOptions = ["uploaded_at", "overall_score", "filename"] ∧
    sortOrderOptions = ["desc", "asc"] ∧
    ∀ (pg : ℕ) (sf sb so : String), sb ∈ sortByOptions → so ∈ sortOrderOptions →
      (buildListRequest pg sf sb so).page = pg ∧
      (buildListRequest pg sf sb so).limit = 10 ∧
      ((buildListRequest pg sf sb so).sort_by = "uploaded_at" ∨
       (buildListRequest pg sf sb so).sort_by = "overall_score" ∨
       (buildListRequest pg sf sb so).sort_by = "filename") ∧
      ((buildListRequest pg sf sb so).sort_order = "asc" ∨
       (buildListRequest pg sf sb so).sort_order = "desc") ∧
      ((buildListRequest pg sf sb so).status = none ∨
       (buildListRequest pg sf sb so).status = some sf) := by
  refine ⟨rfl, rfl, fun pg sf sb so hsb hso => ⟨rfl, rfl, ?_, ?_, ?_⟩⟩
  · simpa [buildListRequest, sortByOptions] using hsb
  · have h := hso
    simp only [sortOrderOptions, List.mem_cons, List.not_mem_nil, or_false] at h
    rcases h with h | h
    · exact Or.inr (by simp [buildListRequest, h])
    · exact Or.inl (by simp [buildListRequest, h])
  · unfold buildListRequest
    by_cases h : sf = "" <;> simp [h]

/-- Claim C7, witness: the request for the initial page state carries
page 1, limit 10, no status filter, the default sort key `uploaded_at`
and order `desc`. -/
theorem list_request_shape_witness :
    (buildListRequest 1 "" "uploaded_at" "desc").page = 1 ∧
    (buildListRequest 1 "" "uploaded_at" "desc").limit = 10 ∧
    ((buildListRequest 1 "" "uploaded_at" "desc").sort_by = "uploaded_at" ∨
     (buildListRequest 1 "" "uploaded_at" "desc").sort_by = "overall_score" ∨
     (buildListRequest 1 "" "uploaded_at" "desc").sort_by = "filename") ∧
    ((buildListRequest 1 "" "uploaded_at" "desc").sort_order = "asc" ∨
     (buildListRequest 1 "" "uploaded_at" "desc").sort_order = "desc") ∧
    ((buildListRequest 1 "" "uploaded_at" "desc").status = none ∨
     (buildListRequest 1 "" "uploaded_at" "desc").status = some "") :=
  list_request_shape.2.2 1 "" "uploaded_at" "desc"
    (by simp [sortByOptions]) (by simp [sortOrderOptions])

/-- Claim C8: the detail query polls at 5000 ms exactly while the
displayed contract's status is `processing`, the list query polls at
5000 ms exactly while some listed contract is `processing`, and in every
other case the interval is off — no other polling rate exists. -/
theorem polling_only_while_processing :
    ∀ (d : Option ProcessingStatus) (cs : Option (List ProcessingStatus)),
      (detailRefetchInterval d = some 5000 ↔ d = some ProcessingStatus.processing) ∧
      (detailRefetchInterval d = none ∨ detailRefetchInterval d = some 5000) ∧
      (listRefetchInterval cs = some 5000 ↔
        ∃ l, cs = some l ∧ ProcessingStatus.processing ∈ l) ∧
      (listRefetchInterval cs = none ∨ listRefetchInterval cs = some 5000) := by
  intro d cs
  refine ⟨?_, ?_, ?_, ?_⟩
  · unfold detailRefetchInterval
    split <;> simp_all
  · unfold detailRefetchInterval
    split <;> simp
  · unfold listRefetchInterval
    cases cs with
    | none => simp
    | some l =>
        split <;>
          simp_all [List.any_eq_true]
  · unfold listRefetchInterval
    split <;> simp

/-- Claim C9: `formatFileSize` is total on byte counts below `1024 ^ 4`:
it answers `0 Bytes` at zero, and for `1 ≤ bytes < 1024 ^ 4` the unit
index `⌊log bytes / log 1024⌋` stays within the four-entry unit array so
the result is the rounded amount paired with one of the units; at
`bytes ≥ 1024 ^ 4` the unit lookup falls outside the array. -/
theorem formatFileSize_total_below_a_terabyte :
    formatFileSize 0 = some (0, "Bytes") ∧
    (∀ b : ℕ, 1 ≤ b → b < 1024 ^ 4 →
      fileSizeIndex b ≤ 3 ∧
      ∃ u, u ∈ sizes ∧ formatFileSize b = some (fileSizeAmount b, u)) ∧
    (∀ b : ℕ, 1024 ^ 4 ≤ b →
      4 ≤ fileSizeIndex b ∧ formatFileSize b = none) := by
  refine ⟨rfl, ?_, ?_⟩
  · intro b hb1 hb2
    have hne : b ≠ 0 := by omega
    have hlog : Nat.log 1024 b < 4 := Nat.log_lt_of_lt_pow hne hb2
    have hle : fileSizeIndex b ≤ 3 := by
      unfold fileSizeIndex
      omega
    refine ⟨hle, ?_⟩
    have hcases : fileSizeIndex b = 0 ∨ fileSizeIndex b = 1 ∨
        fileSizeIndex b = 2 ∨ fileSizeIndex b = 3 := by omega
    rcases hcases with h | h | h | h
    · exact ⟨"Bytes", by simp [sizes], by simp [formatFileSize, hne, h, sizes]⟩
    · exact ⟨"KB", by simp [sizes], by simp [formatFileSize, hne, h, sizes]⟩
    · exact ⟨"MB", by simp [sizes], by simp [formatFileSize, hne, h, sizes]⟩
    · exact ⟨"GB", by simp [sizes], by simp [formatFileSize, hne, h, sizes]⟩
  · intro b hb
    have hpos : (0 : ℕ) < 1024 ^ 4 := by positivity
    have hne : b ≠ 0 := by omega
    have hlog : 4 ≤ Nat.log 1024 b :=
      (Nat.pow_le_iff_le_log (by norm_num) hne).mp hb
    refine ⟨hlog, ?_⟩
    have hnone : sizes.get? (fileSizeIndex b) = none := by
      rw [List.get?_eq_none]
      simpa [sizes, fileSizeIndex] using hlog
    unfold formatFileSize
    rw [if_neg hne, hnone]
    rfl

/-- Claim C9, witness: 2048 bytes falls in range with unit index 1 and a
defined unit, one terabyte falls outside the unit array. -/
theorem formatFileSize_total_below_a_terabyte_witness :
    (fileSizeIndex 2048 ≤ 3 ∧
      ∃ u, u ∈ sizes ∧ formatFileSize 2048 = some (fileSizeAmount 2048, u)) ∧
    (4 ≤ fileSizeIndex (1024 ^ 4) ∧ formatFileSize (1024 ^ 4) = none) :=
  ⟨formatFileSize_total_below_a_terabyte.2.1 2048 (by norm_num) (by norm_num),
   formatFileSize_total_below_a_terabyte.2.2 (1024 ^ 4) le_rfl⟩

/-- Preservation of the page bounds by one pagination click: with the
controls rendered (`10 < total`) and the page within `[1, totalPages]`,
a Previous or Next click keeps it there, because the buttons are
disabled at the boundary. -/
theorem clickPage_bounds (total page : ℕ) (c : PageClick) (ht : 10 < total)
    (h1 : 1 ≤ page) (h2 : page ≤ totalPages total) :
    1 ≤ clickPage total page c ∧ clickPage total page c ≤ totalPages total := by
  cases c
  case prev =>
    unfold clickPage paginationShown prevDisabled
    by_cases hp : page ≤ 1 <;> simp [ht, hp] <;> omega
  case next =>
    unfold clickPage paginationShown nextDisabled
    by_cases hp : totalPages total ≤ page <;> simp [ht, hp] <;> omega

/-- Claim C10: Previous is disabled exactly when `page ≤ 1`, Next is
disabled exactly when `page ≥ ⌈total/10⌉`, the controls are rendered
exactly when `total > 10`, and starting from page 1 every sequence of
Previous/Next clicks keeps the page within `[1, ⌈total/10⌉]`. -/
theorem pagination_page_in_range :
    (∀ page : ℕ, prevDisabled page = true ↔ page ≤ 1) ∧
    (∀ total page : ℕ, nextDisabled total page = true ↔ totalPages total ≤ page) ∧
    (∀ total : ℕ, paginationShown total = true ↔ 10 < total) ∧
    ∀ (total : ℕ) (clicks : List PageClick), 10 < total →
      1 ≤ applyClicks total clicks ∧ applyClicks total clicks ≤ totalPages total := by
  refine ⟨fun page => by simp [prevDisabled],
    fun total page => by simp [nextDisabled],
    fun total => by simp [paginationShown],
    fun total clicks ht => ?_⟩
  have aux : ∀ (cs : List PageClick) (page : ℕ),
      1 ≤ page → page ≤ totalPages total →
      1 ≤ cs.foldl (clickPage total) page ∧
      cs.foldl (clickPage total) page ≤ totalPages total := by
    intro cs
    induction cs with
    | nil => exact fun page h1 h2 => ⟨h1, h2⟩
    | cons c rest ih =>
        intro page h1 h2
        have hb := clickPage_bounds total page c ht h1 h2
        exact ih _ hb.1 hb.2
  have hstart : 1 ≤ totalPages total := by
    unfold totalPages
    omega
  exact aux clicks 1 le_rfl hstart

/-- Claim C10, witness: with 25 contracts (3 pages) the click sequence
Next, Next, Prev keeps the page within `[1, 3]`. -/
theorem pagination_page_in_range_witness :
    1 ≤ applyClicks 25 [PageClick.next, PageClick.next, PageClick.prev] ∧
    applyClicks 25 [PageClick.next, PageClick.next, PageClick.prev] ≤ totalPages 25 :=
  pagination_page_in_range.2.2.2 25
    [PageClick.next, PageClick.next, PageClick.prev] (by norm_num)

end ContractParser
